import Mathlib

/-!
Shallow embedding of the core of the `Wschouten/Chatbot` backend
(`src/backend/rag_engine.py` and `src/backend/app.py`): the retrieval
filter/diversification pipeline, the retrieval cache, the chunking loop,
the ticket-intent classifier, and the chat-handler state machine.

Python strings are modelled as `List Char`; Python `dict`-backed session
state is a structure with `Option` fields; timestamps are integers
(seconds); every external call (OpenAI, shipping API, escalation
delivery) is an oracle parameter.
-/

set_option maxRecDepth 4000

namespace Chatbot

/-- Python strings, modelled as lists of characters. -/
abbrev Str := List Char

/-- ASCII whitespace, as recognised by Python `str.strip` / regex `\s`. -/
def isPyWs (c : Char) : Bool :=
  c = ' ' || c = '\t' || c = '\n' || c = '\r' || c = '\x0b' || c = '\x0c'

/-- Python `str.lower()` (ASCII fragment). -/
def pyLower (s : Str) : Str := s.map Char.toLower

/-- Python `str.strip()`: drop leading and trailing whitespace. -/
def pyStrip (s : Str) : Str :=
  ((s.dropWhile isPyWs).reverse.dropWhile isPyWs).reverse

/-- `startsWith pat s`: does `s` begin with `pat`? -/
def startsWith : Str → Str → Bool
  | [], _ => true
  | _ :: _, [] => false
  | a :: as, b :: bs => a == b && startsWith as bs

/-- Python `pat in s` (substring containment). -/
def containsSub (pat s : Str) : Bool :=
  (List.range (s.length + 1)).any (fun i => startsWith pat (s.drop i))

/-- Python `str.split(c)`: split on every occurrence of `c`
(`n` separators yield `n+1` parts). -/
def splitOnChar (c : Char) : Str → List Str
  | [] => [[]]
  | x :: xs =>
    let r := splitOnChar c xs
    if x = c then [] :: r
    else
      match r with
      | [] => [[x]]
      | h :: t => (x :: h) :: t

/-- Python `c.join(parts)` for a one-character separator. -/
def joinChar (c : Char) : List Str → Str
  | [] => []
  | [x] => x
  | x :: y :: t => x ++ c :: joinChar c (y :: t)

/-- Python `sep.join(parts)` for a string separator. -/
def joinWith (sep : Str) : List Str → Str
  | [] => []
  | [x] => x
  | x :: y :: t => x ++ sep ++ joinWith sep (y :: t)

/-- `app.py` `sanitize_session_id` charset: `[a-zA-Z0-9_\-]`. -/
def isAllowedSess (c : Char) : Bool :=
  ('a' ≤ c && c ≤ 'z') || ('A' ≤ c && c ≤ 'Z') || ('0' ≤ c && c ≤ '9') ||
    c = '_' || c = '-'

/-- `app.py` `sanitize_session_id`:
`re.sub(r'[^a-zA-Z0-9_\-]', '', session_id)[:100]`. -/
def sanitize_session_id (s : Str) : Str :=
  (s.filter isAllowedSess).take 100

/-- Local-part charset of `EMAIL_REGEX`: `[a-zA-Z0-9._%+-]`. -/
def isLocalChar (c : Char) : Bool :=
  c.isAlphanum || c = '.' || c = '_' || c = '%' || c = '+' || c = '-'

/-- Domain charset of `EMAIL_REGEX`: `[a-zA-Z0-9.-]`. -/
def isDomChar (c : Char) : Bool :=
  c.isAlphanum || c = '.' || c = '-'

/-- Whole-string match of
`[a-zA-Z0-9._%+-]+@[a-zA-Z0-9.-]+\.[a-zA-Z]{2,}`: exactly one `@`, a
non-empty local part in its charset, and a domain that decomposes as a
non-empty `[a-zA-Z0-9.-]+` prefix, a dot, and at least two letters. -/
def emailCore (s : Str) : Bool :=
  match splitOnChar '@' s with
  | [localPart, domain] =>
    !localPart.isEmpty && localPart.all isLocalChar &&
      (List.range domain.length).any (fun i =>
        domain.getD i ' ' == '.' && decide (1 ≤ i) &&
          (domain.take i).all isDomChar &&
          decide (2 ≤ (domain.drop (i + 1)).length) &&
          (domain.drop (i + 1)).all Char.isAlpha)
  | _ => false

/-- `app.py` `is_valid_email`: `EMAIL_REGEX.match(email)` with the pattern
anchored by `^...$`. Python `$` also matches just before one trailing
newline. -/
def is_valid_email (s : Str) : Bool :=
  emailCore s || (s.getLast? == some '\n' && emailCore s.dropLast)

/-- Python regex `\w` (ASCII fragment): letters, digits, underscore. -/
def isWordChar (c : Char) : Bool := c.isAlphanum || c = '_'

/-- Does keyword `kw` occur in `s` at index `i` with `\b` boundaries on
both sides? -/
def matchKwAt (s kw : Str) (i : Nat) : Bool :=
  startsWith kw (s.drop i) &&
    (i == 0 || !isWordChar (s.getD (i - 1) ' ')) &&
    (decide (s.length ≤ i + kw.length) || !isWordChar (s.getD (i + kw.length) ' '))

/-- `re.search(r'\b(kw1|...|kwn)\b', s)` as a boolean. -/
def containsWordAny (kws : List Str) (s : Str) : Bool :=
  kws.any (fun kw => (List.range (s.length + 1)).any (fun i => matchKwAt s kw i))

/-- Affirmative keyword set of the order-confirmation branch:
`\b(ja|yes|correct|klopt|inderdaad)\b`. -/
def isAffirmative (s : Str) : Bool :=
  containsWordAny ["ja".data, "yes".data, "correct".data, "klopt".data,
    "inderdaad".data] s

/-- Negative keyword set of the order-confirmation branch:
`\b(nee|no|nope|incorrect|verkeerd)\b`. -/
def isNegative (s : Str) : Bool :=
  containsWordAny ["nee".data, "no".data, "nope".data, "incorrect".data,
    "verkeerd".data] s

/-- Index of the first non-whitespace character at or after `i`
(regex `\s*`). -/
def skipWs (s : Str) (i : Nat) : Nat :=
  i + ((s.drop i).takeWhile isPyWs).length

/-- Match `\s*#?\s*(\d+)` starting at index `j`; returns the captured
digit run. -/
def parseOrderTail (s : Str) (j : Nat) : Option Str :=
  let j1 := skipWs s j
  let j2 := if s.getD j1 ' ' = '#' then j1 + 1 else j1
  let j3 := skipWs s j2
  let ds := (s.drop j3).takeWhile Char.isDigit
  if ds.isEmpty then none else some ds

/-- End positions (in backtracking order) of the keyword alternation
`order|bestelling(?:nummer)?|zending(?:nummer)?` matched at index `i`. -/
def kwMatchEnds (s : Str) (i : Nat) : List Nat :=
  if startsWith "order".data (s.drop i) then [i + 5]
  else if startsWith "bestellingnummer".data (s.drop i) then [i + 16, i + 10]
  else if startsWith "bestelling".data (s.drop i) then [i + 10]
  else if startsWith "zendingnummer".data (s.drop i) then [i + 13, i + 7]
  else if startsWith "zending".data (s.drop i) then [i + 7]
  else []

/-- Full order-number pattern matched at index `i`. -/
def matchOrderAt (s : Str) (i : Nat) : Option Str :=
  (kwMatchEnds s i).foldl (fun acc j => acc <|> parseOrderTail s j) none

/-- `app.py` order detection:
`re.search(r'(?:order|bestelling(?:nummer)?|zending(?:nummer)?)\s*#?\s*(\d+)', lower)`
returning `group(1)` of the leftmost match. -/
def findOrderId (s : Str) : Option Str :=
  (List.range s.length).foldl (fun acc i => acc <|> matchOrderAt s i) none

/-- A retrieved candidate: document id, chunk text and vector distance
(the parallel `ids`/`documents`/`distances` lists of the ChromaDB query
result). Distances are modelled as rationals. -/
structure RChunk where
  docId : Str
  text : Str
  distance : ℚ
deriving DecidableEq

/-- `"_chunk_"`, the separator of composite chunk ids. -/
def chunkSep : Str := "_chunk_".data

/-- `rag_engine.py` source extraction from a chunk id:
`"_".join(doc_id.split("_")[:-2]) if "_chunk_" in doc_id else doc_id`. -/
def extractSource (docId : Str) : Str :=
  if containsSub chunkSep docId then
    joinChar '_' ((splitOnChar '_' docId).take ((splitOnChar '_' docId).length - 2))
  else docId

/-- Feature 13A relevance filtering: keep candidates with
`distance <= self.relevance_threshold`. -/
def ragFilter (th : ℚ) (l : List RChunk) : List RChunk :=
  l.filter (fun c => decide (c.distance ≤ th))

/-- Feature 13B source-diversity loop: walk the filtered list carrying the
`source_count` map and the `diversified` accumulator; admit a candidate
when its source was seen fewer than 2 times; after each iteration stop as
soon as 5 candidates have been admitted. -/
def diversifyAux : List RChunk → (Str → Nat) → List RChunk → List RChunk
  | [], _, acc => acc
  | c :: rest, counts, acc =>
    if counts (extractSource c.docId) < 2 then
      if 5 ≤ (acc ++ [c]).length then acc ++ [c]
      else
        diversifyAux rest
          (fun t => if t = extractSource c.docId then counts t + 1 else counts t)
          (acc ++ [c])
    else
      if 5 ≤ acc.length then acc
      else diversifyAux rest counts acc

/-- Source diversification started with an empty accumulator and all
source counts at 0. -/
def diversify (l : List RChunk) : List RChunk :=
  diversifyAux l (fun _ => 0) []

/-- Number of admitted chunks whose extracted source is `src`. -/
def countSource (src : Str) (l : List RChunk) : Nat :=
  (l.filter (fun c => decide (extractSource c.docId = src))).length

/-- The retrieval part of `get_answer` after the vector query: filter by
threshold, diversify, and join the admitted texts with `"\n\n"`. When the
filter leaves nothing, the context stays `""`. -/
def retrievedContext (th : ℚ) (l : List RChunk) : Str :=
  joinWith "\n\n".data ((diversify (ragFilter th l)).map RChunk.text)

/-- One retrieval-cache entry: query, cached context, timestamp. -/
abbrev CacheEntry := Str × Str × ℤ

/-- The `session_cache` dict: query -> (context, timestamp). -/
abbrev Cache := List CacheEntry

/-- Dict lookup. -/
def lookupC (q : Str) : Cache → Option (Str × ℤ)
  | [] => none
  | p :: t => if p.1 = q then some p.2 else lookupC q t

/-- Python `del cache[q]`. -/
def eraseKey (q : Str) : Cache → Cache
  | [] => []
  | p :: t => if p.1 = q then eraseKey q t else p :: eraseKey q t

/-- Python `cache[q] = v`: replace in place, else append. -/
def assignKey (q : Str) (v : Str × ℤ) : Cache → Cache
  | [] => [(q, v)]
  | p :: t => if p.1 = q then (q, v) :: t else p :: assignKey q v t

/-- Stable insertion (after entries with an equal or smaller timestamp),
used to model Python's stable `sorted(..., key=lambda x: x[1][1])`. -/
def insertByTs (p : CacheEntry) : Cache → Cache
  | [] => [p]
  | q :: t => if q.2.2 ≤ p.2.2 then q :: insertByTs p t else p :: q :: t

/-- Stable sort of the cache items by timestamp. -/
def sortByTs (l : Cache) : Cache :=
  l.foldl (fun acc p => insertByTs p acc) []

/-- `rag_engine.py` `_get_cached_context`: return the entry if it is
younger than `cache_ttl` (300 s), delete it if stale, miss otherwise.
Returns the optional context together with the updated cache. -/
def get_cached_context (now : ℤ) (cache : Cache) (q : Str) : Option Str × Cache :=
  match lookupC q cache with
  | some (ctx, ts) => if now - ts < 300 then (some ctx, cache) else (none, eraseKey q cache)
  | none => (none, cache)

/-- `rag_engine.py` `_cache_context`: store `(context, now)` under `q`;
when more than 50 entries remain, delete the 10 with the oldest
timestamps. -/
def cache_context (now : ℤ) (cache : Cache) (q ctx : Str) : Cache :=
  let c1 := assignKey q (ctx, now) cache
  if 50 < c1.length then
    ((sortByTs c1).take 10).foldl (fun acc p => eraseKey p.1 acc) c1
  else c1

/-- The caching skeleton of `get_answer` around one retrieval: consult the
cache first (a cached empty string is falsy and treated as a miss); on a
miss run the fresh retrieval (`fresh` stands for the embedding + vector
search + filter + diversify result) and cache it when non-empty. The
boolean records whether the embedding/vector search was performed. -/
def retrieveWithCache (now : ℤ) (cache : Cache) (q fresh : Str) :
    Str × Cache × Bool :=
  match get_cached_context now cache q with
  | (some ctx, c') =>
    if ctx.isEmpty then
      (fresh, if fresh.isEmpty then c' else cache_context now c' q fresh, true)
    else (ctx, c', false)
  | (none, c') =>
    (fresh, if fresh.isEmpty then c' else cache_context now c' q fresh, true)

/-- Python slice `text[a:b]` (for natural `a`, `b`). -/
def pySlice (l : Str) (a b : Nat) : Str := (l.take b).drop a

/-- Python `chunk.rfind('\n')`: index of the last newline, if any. -/
def rfindNewline (chunk : Str) : Option Nat :=
  ((List.range chunk.length).filter (fun i => chunk.getD i ' ' = '\n')).getLast?

/-- One iteration of the `_ingest_text_chunks` while-loop, tracking only
the window start (embedding failures do not change control flow):
compute `end`, optionally back it up to just past the last newline when
`last_newline > chunk_size * 0.5`, advance `start = max(end - overlap, 0)`,
break when `start >= text_len`, and apply the `end <= start` guard.
Returns `none` when the loop exits, `some start'` to continue. -/
def chunkStep (text : Str) (chunkSize overlap start : Nat) : Option Nat :=
  let textLen := text.length
  let end0 := start + chunkSize
  let chunk0 := pySlice text start end0
  let e :=
    if end0 < textLen then
      match rfindNewline chunk0 with
      | some ln => if chunkSize < 2 * ln then start + ln + 1 else end0
      | none => end0
    else end0
  let s1 := e - overlap
  if textLen ≤ s1 then none
  else if e ≤ s1 then some e
  else some s1

/-- Fuel-indexed run of the chunking loop from window start `start`;
`true` means the loop exited within `fuel` iterations. -/
def chunkRun (text : Str) (chunkSize overlap : Nat) : Nat → Nat → Bool
  | 0, _ => false
  | fuel + 1, start =>
    if start < text.length then
      match chunkStep text chunkSize overlap start with
      | none => true
      | some s' => chunkRun text chunkSize overlap fuel s'
    else true

/-- The decline keyword pre-filter list of `detect_ticket_intent`. -/
def declineKeywords : List Str :=
  ["nee".data, "laat maar".data, "no".data, "never mind".data,
    "forget it".data, "niet nodig".data, "hoeft niet".data,
    "no thanks".data, "nope".data, "nee hoor".data,
    "laat maar zitten".data, "geen interesse".data, "not interested".data]

/-- `rag_engine.py` `detect_ticket_intent`. `hasClient` models
`self.openai_client` being set; `llm` models the classifier call:
`none` is an exception or a `None` content, `some r` a returned string. -/
def detect_ticket_intent (text : Str) (hasClient : Bool) (llm : Option Str) : Str :=
  let tl := pyStrip (pyLower text)
  if declineKeywords.any (fun kw => containsSub kw tl) then "declining".data
  else if !hasClient then "giving_name".data
  else
    match llm with
    | none => "giving_name".data
    | some r =>
      if r.isEmpty then "giving_name".data
      else
        let r' := pyLower (pyStrip r)
        if r' = "giving_name".data ∨ r' = "declining".data ∨ r' = "new_question".data
        then r'
        else "giving_name".data

/-- Per-session state persisted by `app.py` (`sessions/<id>.json`).
Missing dict keys are `none`; `state` defaults to `"inactive"` at load. -/
structure Session where
  state : Str
  language : Option Str
  name : Option Str
  email : Option Str
  question : Option Str
  chatHistory : List (Str × Str)
  awaitingOrderConfirmation : Bool
  pendingOrderId : Option Str
  confirmationTimestamp : Option ℤ
deriving DecidableEq

/-- The default state returned by `get_session_state` for an unknown or
corrupt session file: `{'state': 'inactive'}`. -/
def freshSession : Session :=
  { state := "inactive".data, language := none, name := none, email := none,
    question := none, chatHistory := [], awaitingOrderConfirmation := false,
    pendingOrderId := none, confirmationTimestamp := none }

/-- `state_data = {'state': 'inactive', 'chat_history': hist}`: the whole
dict is replaced, dropping every other key. -/
def resetInactive (hist : List (Str × Str)) : Session :=
  { freshSession with chatHistory := hist }

/-- Pop the three order-confirmation keys. -/
def clearConf (st : Session) : Session :=
  { st with
      awaitingOrderConfirmation := false
      pendingOrderId := none
      confirmationTimestamp := none }

/-- Arguments of one escalation-delivery call
(`send_email` / `create_ticket`). -/
structure EscArgs where
  name : Str
  email : Str
  question : Str
  history : List (Str × Str)
deriving DecidableEq

/-- Which return path of the `chat` handler produced the response. -/
inductive RTag where
  | emptyMsg | tooLong | declineAck | askEmail | escalationOk | escalationFail
  | invalidEmail | shipStatus | shipError | orderReprompt | confirmAsk
  | answer | humanAsk | unknownHelp
deriving DecidableEq

/-- Observable outcome of one `chat` turn: the session state as last
saved (unchanged when nothing was saved), the escalation-delivery call if
any, the shipment-status lookup if any, the return path, and whether
`save_session_state` ran at all. -/
structure ChatOut where
  session : Session
  escalation : Option EscArgs
  lookup : Option Str
  tag : RTag
  saved : Bool
deriving DecidableEq

/-- The external collaborators of one turn: wall-clock time, the LLM
classifiers/generators of `RagEngine`, the shipping client and the
escalation-delivery result (`none` = falsy failure). -/
structure Oracle where
  now : ℤ
  ticketIntent : Str → Str
  extractName : Str → Str
  detectLanguage : Str → Str
  ragAnswer : Str → List (Str × Str) → Str → Str
  helpfulUnknown : Str → Str → Str
  shipmentSuccess : Str → Bool
  escalationResult : Option Unit

/-- Keep the last `n` entries (Python `l[-n:]`). -/
def lastN {α : Type} (n : Nat) (l : List α) : List α := l.drop (l.length - n)

/-- Append the user/assistant pair and truncate to the last 10 entries
(`chat_history[-10:]`). -/
def appendHistory (st : Session) (msg resp : Str) : Session :=
  { st with
      chatHistory :=
        lastN 10 (st.chatHistory ++ [("user".data, msg), ("assistant".data, resp)]) }

/-- Canned Dutch reply of the `__HUMAN_REQUESTED__` branch. -/
def humanRespNl : Str :=
  "Natuurlijk! Ik breng je graag in contact met een collega. Wat is je naam?".data

/-- Canned English reply of the `__HUMAN_REQUESTED__` branch. -/
def humanRespEn : Str :=
  "Of course! I would be happy to connect you with a colleague. What is your name?".data

/-- The tail of the `chat` handler after the order-confirmation check:
order-number detection, language detection, RAG answer and the two
sentinel-marker branches, ending with the history update and save. -/
def afterConfirmation (o : Oracle) (st : Session) (msg : Str) : ChatOut :=
  match findOrderId (pyLower msg) with
  | some oid =>
    { session :=
        { st with
            awaitingOrderConfirmation := true
            pendingOrderId := some oid
            confirmationTimestamp := some o.now }
      escalation := none
      lookup := none
      tag := RTag.confirmAsk
      saved := true }
  | none =>
    let lang := o.detectLanguage msg
    let st1 := { st with language := some lang }
    let resp := o.ragAnswer msg st.chatHistory lang
    if containsSub "__HUMAN_REQUESTED__".data resp then
      { session :=
          appendHistory
            { st1 with state := "awaiting_name".data, question := some msg } msg
            (if lang = "nl".data then humanRespNl else humanRespEn)
        escalation := none
        lookup := none
        tag := RTag.humanAsk
        saved := true }
    else if containsSub "__UNKNOWN__".data resp then
      { session := appendHistory st1 msg (o.helpfulUnknown msg lang)
        escalation := none
        lookup := none
        tag := RTag.unknownHelp
        saved := true }
    else
      { session := appendHistory st1 msg resp
        escalation := none
        lookup := none
        tag := RTag.answer
        saved := true }

/-- The order-confirmation check of the `chat` handler: 5-minute timeout
first (stale sub-state is cleared and the turn falls through), then the
affirmative / negative keyword sets; any other message falls through with
the sub-state kept. -/
def afterStates (o : Oracle) (st : Session) (msg : Str) : ChatOut :=
  if st.awaitingOrderConfirmation then
    match st.confirmationTimestamp with
    | some ts =>
      if 300 < o.now - ts then afterConfirmation o (clearConf st) msg
      else if isAffirmative (pyLower msg) then
        { session := clearConf st
          escalation := none
          lookup := some (st.pendingOrderId.getD [])
          tag :=
            if o.shipmentSuccess (st.pendingOrderId.getD []) then RTag.shipStatus
            else RTag.shipError
          saved := true }
      else if isNegative (pyLower msg) then
        { session := clearConf st
          escalation := none
          lookup := none
          tag := RTag.orderReprompt
          saved := true }
      else afterConfirmation o st msg
    | none => afterConfirmation o st msg
  else afterConfirmation o st msg

/-- The `/api/chat` handler (`app.py` `chat`): input validation, the
`awaiting_name` and `awaiting_email` escalation states (with intent
detection and fall-through on `new_question`), then the
order-confirmation sub-state and the RAG pipeline. -/
def chat (o : Oracle) (st : Session) (msg : Str) : ChatOut :=
  if msg.isEmpty then
    { session := st
      escalation := none
      lookup := none
      tag := RTag.emptyMsg
      saved := false }
  else if 1000 < msg.length then
    { session := st
      escalation := none
      lookup := none
      tag := RTag.tooLong
      saved := false }
  else if st.state = "awaiting_name".data then
    if o.ticketIntent msg = "declining".data then
      { session := resetInactive st.chatHistory
        escalation := none
        lookup := none
        tag := RTag.declineAck
        saved := true }
    else if o.ticketIntent msg = "new_question".data then
      afterStates o (resetInactive st.chatHistory) msg
    else
      { session :=
          { st with
              name := some (o.extractName msg)
              state := "awaiting_email".data }
        escalation := none
        lookup := none
        tag := RTag.askEmail
        saved := true }
  else if st.state = "awaiting_email".data then
    if is_valid_email (pyStrip msg) then
      { session := resetInactive []
        escalation :=
          some
            { name := st.name.getD "Unknown".data
              email := pyStrip msg
              question := st.question.getD []
              history := st.chatHistory }
        lookup := none
        tag :=
          if o.escalationResult.isSome then RTag.escalationOk
          else RTag.escalationFail
        saved := true }
    else if o.ticketIntent msg = "declining".data then
      { session := resetInactive st.chatHistory
        escalation := none
        lookup := none
        tag := RTag.declineAck
        saved := true }
    else if o.ticketIntent msg = "new_question".data then
      afterStates o (resetInactive st.chatHistory) msg
    else
      { session := st
        escalation := none
        lookup := none
        tag := RTag.invalidEmail
        saved := false }
  else afterStates o st msg

/-- A concrete oracle for witness instantiations: intent classifier always
`giving_name`, language detection `en` exactly for `"hello"`, constant
RAG answer, successful shipping lookup, successful escalation delivery. -/
def oW : Oracle :=
  { now := 301
    ticketIntent := fun _ => "giving_name".data
    extractName := fun s => s
    detectLanguage := fun m => if m = "hello".data then "en".data else "nl".data
    ragAnswer := fun _ _ _ => "antwoord".data
    helpfulUnknown := fun _ _ => "hulp".data
    shipmentSuccess := fun _ => true
    escalationResult := some () }

/-- `oW` with a failing escalation delivery (`send_email` returned a falsy
result). -/
def oWFail : Oracle := { oW with escalationResult := none }

/-- `oW` observed at `t = 299` seconds. -/
def oW299 : Oracle := { oW with now := 299 }

/-- A session with the order-confirmation sub-state set at `t = 0` for
order `12345`. -/
def stConfW : Session :=
  { freshSession with
      awaitingOrderConfirmation := true
      pendingOrderId := some "12345".data
      confirmationTimestamp := some 0 }

/-- A session waiting for the user's email address mid-escalation. -/
def stEmailW : Session :=
  { freshSession with
      state := "awaiting_email".data
      name := some "Jan".data
      question := some "vraag over schors".data
      chatHistory := [("user".data, "hoi".data), ("assistant".data, "hallo".data)] }

section Lemmas

/-- `splitOnChar` never returns the empty list of parts. -/
theorem splitOnChar_ne_nil (c : Char) (l : Str) : splitOnChar c l ≠ [] := by
  cases l with
  | nil => simp [splitOnChar]
  | cons x xs =>
    simp only [splitOnChar]
    by_cases h : x = c
    · simp [h]
    · simp only [h, if_false]
      rcases hr : splitOnChar c xs with _ | ⟨hh, tt⟩ <;> simp

/-- Splitting distributes over an occurrence of the separator. -/
theorem splitOnChar_append_cons (c : Char) (a b : Str) :
    splitOnChar c (a ++ c :: b) = splitOnChar c a ++ splitOnChar c b := by
  induction a with
  | nil => simp [splitOnChar]
  | cons x xs ih =>
    by_cases h : x = c
    · simp [splitOnChar, h, ih]
    · simp only [List.cons_append, splitOnChar, h, if_false, List.append_eq]
      rw [ih]
      rcases hr : splitOnChar c xs with _ | ⟨hh, tt⟩
      · exact absurd hr (splitOnChar_ne_nil c xs)
      · simp

/-- A string without the separator splits into a single part. -/
theorem splitOnChar_of_not_mem {c : Char} {l : Str} (h : c ∉ l) :
    splitOnChar c l = [l] := by
  induction l with
  | nil => rfl
  | cons x xs ih =>
    simp only [List.mem_cons, not_or] at h
    simp [splitOnChar, Ne.symm h.1, ih h.2]

/-- `joinChar` is a left inverse of `splitOnChar`. -/
theorem joinChar_splitOnChar (c : Char) (l : Str) :
    joinChar c (splitOnChar c l) = l := by
  induction l with
  | nil => rfl
  | cons x xs ih =>
    simp only [splitOnChar]
    by_cases h : x = c
    · subst h
      simp only [if_pos rfl]
      rcases hr : splitOnChar x xs with _ | ⟨hh, tt⟩
      · exact absurd hr (splitOnChar_ne_nil x xs)
      · rw [hr] at ih
        simp only [joinChar, List.nil_append]
        rw [ih]
    · simp only [h, if_false]
      rcases hr : splitOnChar c xs with _ | ⟨hh, tt⟩
      · exact absurd hr (splitOnChar_ne_nil c xs)
      · rw [hr] at ih
        cases tt with
        | nil =>
          simp only [joinChar] at ih ⊢
          rw [ih]
        | cons u v =>
          simp only [joinChar] at ih ⊢
          rw [← ih]
          simp

/-- `containsSub` holds whenever the pattern occurs as an inner factor. -/
theorem containsSub_of_factor (pat a b : Str) :
    containsSub pat (a ++ pat ++ b) = true := by
  have hpref : ∀ p q : Str, startsWith p (p ++ q) = true := by
    intro p
    induction p with
    | nil => intro q; rfl
    | cons x xs ih => intro q; simp [startsWith, ih]
  unfold containsSub
  rw [List.any_eq_true]
  refine ⟨a.length, ?_, ?_⟩
  · rw [List.mem_range]
    have : a.length ≤ (a ++ pat ++ b).length := by simp
    omega
  · have : (a ++ pat ++ b).drop a.length = pat ++ b := by
      rw [List.append_assoc, List.drop_append_of_le_length (le_refl _)]
      simp
    rw [this]
    exact hpref pat b

/-- On a well-formed chunk id `source ++ "_chunk_" ++ n` (with `n` free of
underscores, as the numeric chunk index always is), the code's
split/join source extraction returns exactly the source, i.e. it strips
the trailing `_chunk_<n>` suffix. -/
theorem extractSource_wellFormed (s n : Str) (hn : '_' ∉ n) :
    extractSource (s ++ chunkSep ++ n) = s := by
  have hsplit : splitOnChar '_' (s ++ chunkSep ++ n)
      = splitOnChar '_' s ++ ["chunk".data, n] := by
    have h1 : s ++ chunkSep ++ n = s ++ '_' :: ("chunk".data ++ '_' :: n) := by
      simp [chunkSep]
    rw [h1, splitOnChar_append_cons, splitOnChar_append_cons]
    rw [splitOnChar_of_not_mem (by decide : '_' ∉ "chunk".data),
      splitOnChar_of_not_mem hn]
    simp
  unfold extractSource
  rw [if_pos (containsSub_of_factor chunkSep s n), hsplit]
  have hlen : (splitOnChar '_' s ++ ["chunk".data, n]).length
      = (splitOnChar '_' s).length + 2 := by simp
  rw [hlen]
  have htake : (splitOnChar '_' s ++ ["chunk".data, n]).take
      ((splitOnChar '_' s).length + 2 - 2) = splitOnChar '_' s := by
    simp [List.take_left]
  rw [htake, joinChar_splitOnChar]

/-- `countSource` distributes over append. -/
theorem countSource_append (s : Str) (a b : List RChunk) :
    countSource s (a ++ b) = countSource s a + countSource s b := by
  simp [countSource, List.filter_append]

/-- `countSource` of a singleton. -/
theorem countSource_singleton (s : Str) (c : RChunk) :
    countSource s [c] = if extractSource c.docId = s then 1 else 0 := by
  by_cases h : extractSource c.docId = s <;> simp [countSource, h]

/-- The diversity loop never admits more than 5 chunks (starting from an
accumulator of at most 4). -/
theorem diversifyAux_length (l : List RChunk) :
    ∀ (counts : Str → Nat) (acc : List RChunk), acc.length ≤ 4 →
      (diversifyAux l counts acc).length ≤ 5 := by
  induction l with
  | nil =>
    intro counts acc h
    simp only [diversifyAux]
    omega
  | cons c rest ih =>
    intro counts acc h
    simp only [diversifyAux]
    by_cases h1 : counts (extractSource c.docId) < 2
    · rw [if_pos h1]
      by_cases h2 : 5 ≤ (acc ++ [c]).length
      · rw [if_pos h2]
        simp only [List.length_append, List.length_cons, List.length_nil]
        omega
      · rw [if_neg h2]
        apply ih
        simp only [List.length_append, List.length_cons, List.length_nil] at h2 ⊢
        omega
    · rw [if_neg h1]
      by_cases h2 : 5 ≤ acc.length
      · rw [if_pos h2]
        omega
      · rw [if_neg h2]
        exact ih _ _ h

/-- The diversity loop never admits more than 2 chunks of the same
source, given that the `source_count` map counts the accumulator. -/
theorem diversifyAux_count (l : List RChunk) :
    ∀ (counts : Str → Nat) (acc : List RChunk),
      (∀ t, countSource t acc = counts t) → (∀ t, counts t ≤ 2) →
      ∀ s, countSource s (diversifyAux l counts acc) ≤ 2 := by
  induction l with
  | nil =>
    intro counts acc hinv hle s
    simp only [diversifyAux]
    rw [hinv s]
    exact hle s
  | cons c rest ih =>
    intro counts acc hinv hle s
    simp only [diversifyAux]
    by_cases h1 : counts (extractSource c.docId) < 2
    · by_cases h2 : 5 ≤ (acc ++ [c]).length
      · simp only [if_pos h1, if_pos h2]
        rw [countSource_append, countSource_singleton, hinv s]
        by_cases hs : extractSource c.docId = s
        · rw [if_pos hs]
          rw [← hs] at *
          omega
        · rw [if_neg hs]
          have := hle s
          omega
      · simp only [if_pos h1, if_neg h2]
        apply ih
        · intro t
          rw [countSource_append, countSource_singleton, hinv t]
          by_cases ht : t = extractSource c.docId
          · rw [if_pos ht, if_pos (ht ▸ rfl)]
          · rw [if_neg ht, if_neg (fun hx => ht hx.symm)]
            omega
        · intro t
          by_cases ht : t = extractSource c.docId
          · rw [if_pos ht, ht]
            omega
          · rw [if_neg ht]
            exact hle t
    · by_cases h2 : 5 ≤ acc.length
      · simp only [if_neg h1, if_pos h2]
        rw [hinv s]
        exact hle s
      · simp only [if_neg h1, if_neg h2]
        exact ih counts acc hinv hle s

/-- The diversity loop output is the accumulator followed by an
order-preserving selection of the input. -/
theorem diversifyAux_sublist (l : List RChunk) :
    ∀ (counts : Str → Nat) (acc : List RChunk),
      ∃ t, diversifyAux l counts acc = acc ++ t ∧ t.Sublist l := by
  induction l with
  | nil =>
    intro counts acc
    exact ⟨[], by simp [diversifyAux], List.nil_sublist _⟩
  | cons c rest ih =>
    intro counts acc
    simp only [diversifyAux]
    by_cases h1 : counts (extractSource c.docId) < 2
    · by_cases h2 : 5 ≤ (acc ++ [c]).length
      · exact ⟨[c], by rw [if_pos h1, if_pos h2],
          (List.nil_sublist rest).cons₂ c⟩
      · obtain ⟨t, ht, hs⟩ := ih
          (fun u => if u = extractSource c.docId then counts u + 1 else counts u)
          (acc ++ [c])
        refine ⟨c :: t, ?_, hs.cons₂ c⟩
        rw [if_pos h1, if_neg h2, ht]
        simp
    · by_cases h2 : 5 ≤ acc.length
      · exact ⟨[], by rw [if_neg h1, if_pos h2, List.append_nil], List.nil_sublist _⟩
      · obtain ⟨t, ht, hs⟩ := ih counts acc
        exact ⟨t, by rw [if_neg h1, if_neg h2, ht], hs.cons c⟩

/-- Diversification returns an order-preserving selection of its input. -/
theorem diversify_sublist (l : List RChunk) : (diversify l).Sublist l := by
  obtain ⟨t, ht, hs⟩ := diversifyAux_sublist l (fun _ => 0) []
  unfold diversify
  rw [ht]
  simpa using hs

/-- Looking up a key just deleted from the cache misses. -/
theorem lookupC_eraseKey (q : Str) (c : Cache) :
    lookupC q (eraseKey q c) = none := by
  induction c with
  | nil => rfl
  | cons p t ih =>
    by_cases h : p.1 = q
    · simp [eraseKey, h, ih]
    · simp [eraseKey, lookupC, h, ih]

/-- A non-empty, length-bounded message in a session whose primary state
is neither `awaiting_name` nor `awaiting_email` reaches the
order-confirmation check. -/
theorem chat_inactive (o : Oracle) (st : Session) (msg : Str)
    (h1 : st.state = "inactive".data) (h3 : msg ≠ []) (h4 : msg.length ≤ 1000) :
    chat o st msg = afterStates o st msg := by
  have he : msg.isEmpty = false := by
    cases msg with
    | nil => exact absurd rfl h3
    | cons a t => rfl
  unfold chat
  rw [if_neg (by simp [he]), if_neg (by omega : ¬ 1000 < msg.length), h1,
    if_neg (by decide : ¬ ("inactive".data = "awaiting_name".data)),
    if_neg (by decide : ¬ ("inactive".data = "awaiting_email".data))]

/-- In `awaiting_email`, a message that strips to a valid email reduces
the handler to the escalation branch. -/
theorem chat_awaiting_email_valid (o : Oracle) (st : Session) (msg : Str)
    (h1 : st.state = "awaiting_email".data)
    (h2 : is_valid_email (pyStrip msg) = true)
    (h3 : msg ≠ []) (h4 : msg.length ≤ 1000) :
    chat o st msg =
      { session := resetInactive []
        escalation :=
          some
            { name := st.name.getD "Unknown".data
              email := pyStrip msg
              question := st.question.getD []
              history := st.chatHistory }
        lookup := none
        tag :=
          if o.escalationResult.isSome then RTag.escalationOk
          else RTag.escalationFail
        saved := true } := by
  have he : msg.isEmpty = false := by
    cases msg with
    | nil => exact absurd rfl h3
    | cons a t => rfl
  unfold chat
  rw [if_neg (by simp [he]), if_neg (by omega : ¬ 1000 < msg.length), h1,
    if_neg (by decide : ¬ ("awaiting_email".data = "awaiting_name".data)),
    if_pos rfl, if_pos h2]

/-- An expired order confirmation (strictly more than 300 seconds old)
clears the sub-state and falls through to normal processing. -/
theorem afterStates_timeout (o : Oracle) (st : Session) (msg : Str) (ts : ℤ)
    (hawait : st.awaitingOrderConfirmation = true)
    (hts : st.confirmationTimestamp = some ts)
    (hgt : 300 < o.now - ts) :
    afterStates o st msg = afterConfirmation o (clearConf st) msg := by
  unfold afterStates
  rw [hawait, if_pos rfl, hts]
  simp only []
  rw [if_pos hgt]

/-- Without the order-confirmation flag the check is skipped. -/
theorem afterStates_not_awaiting (o : Oracle) (st : Session) (msg : Str)
    (h : st.awaitingOrderConfirmation = false) :
    afterStates o st msg = afterConfirmation o st msg := by
  unfold afterStates
  rw [h, if_neg (by simp)]

/-- A fresh confirmation plus an affirmative keyword triggers the
shipment-status lookup and clears the sub-state. -/
theorem afterStates_affirm (o : Oracle) (st : Session) (msg : Str) (ts : ℤ)
    (hawait : st.awaitingOrderConfirmation = true)
    (hts : st.confirmationTimestamp = some ts)
    (hnl : ¬ 300 < o.now - ts)
    (haff : isAffirmative (pyLower msg) = true) :
    afterStates o st msg =
      { session := clearConf st
        escalation := none
        lookup := some (st.pendingOrderId.getD [])
        tag :=
          if o.shipmentSuccess (st.pendingOrderId.getD []) then RTag.shipStatus
          else RTag.shipError
        saved := true } := by
  unfold afterStates
  rw [hawait, if_pos rfl, hts]
  simp only []
  rw [if_neg hnl, if_pos haff]

/-- The post-confirmation tail never performs a shipment lookup. -/
theorem afterConfirmation_lookup_none (o : Oracle) (st : Session) (msg : Str) :
    (afterConfirmation o st msg).lookup = none := by
  unfold afterConfirmation
  cases h : findOrderId (pyLower msg) with
  | some oid => rfl
  | none =>
    simp only []
    split
    · rfl
    · split <;> rfl

/-- Whenever the turn reaches language detection (no order-number match),
the saved session stores the freshly detected language. -/
theorem afterConfirmation_language (o : Oracle) (st : Session) (msg : Str)
    (hord : findOrderId (pyLower msg) = none) :
    (afterConfirmation o st msg).session.language = some (o.detectLanguage msg) := by
  unfold afterConfirmation
  rw [hord]
  simp only []
  split
  · simp [appendHistory]
  · split
    · simp [appendHistory]
    · simp [appendHistory]

end Lemmas

/-- C1: every chunk admitted into the returned context passed the
relevance filter, so its distance is at most the threshold; and when
every candidate is strictly beyond the threshold, the context is the
empty string. -/
theorem claim1_relevance_threshold (th : ℚ) (l : List RChunk) :
    (∀ c ∈ diversify (ragFilter th l), c.distance ≤ th) ∧
    ((∀ c ∈ l, th < c.distance) → retrievedContext th l = []) := by
  constructor
  · intro c hc
    have hmem : c ∈ ragFilter th l := (diversify_sublist _).subset hc
    unfold ragFilter at hmem
    rw [List.mem_filter] at hmem
    exact of_decide_eq_true hmem.2
  · intro hall
    have hnil : ragFilter th l = [] := by
      unfold ragFilter
      rw [List.filter_eq_nil_iff]
      intro c hc
      simpa using not_le.mpr (hall c hc)
    rw [retrievedContext, hnil]
    rfl

/-- C1 witness: a concrete candidate below the threshold is kept with its
distance bounded, and a list whose only candidate is beyond the
threshold yields the empty context. -/
theorem claim1_relevance_threshold_witness :
    RChunk.distance { docId := "doc.txt_chunk_0".data, text := "A".data, distance := 1 } ≤ 2 ∧
    retrievedContext 2 [{ docId := "doc.txt_chunk_1".data, text := "B".data, distance := 3 }] = [] :=
  ⟨(claim1_relevance_threshold 2
      [{ docId := "doc.txt_chunk_0".data, text := "A".data, distance := 1 }]).1
      { docId := "doc.txt_chunk_0".data, text := "A".data, distance := 1 } (by decide),
    (claim1_relevance_threshold 2
      [{ docId := "doc.txt_chunk_1".data, text := "B".data, distance := 3 }]).2
      (by decide)⟩

/-- C2: the diversification step admits at most 5 chunks, at most 2 per
distinct source, as an order-preserving (distance-ordered) selection of
the filtered list; the context is the double-newline join of the admitted
texts; and on well-formed ids the source is obtained by stripping the
trailing `_chunk_<n>` suffix. -/
theorem claim2_source_diversification (th : ℚ) (l : List RChunk) :
    (diversify (ragFilter th l)).length ≤ 5 ∧
    (∀ src, countSource src (diversify (ragFilter th l)) ≤ 2) ∧
    (diversify (ragFilter th l)).Sublist (ragFilter th l) ∧
    retrievedContext th l
      = joinWith "\n\n".data ((diversify (ragFilter th l)).map RChunk.text) ∧
    (∀ s n, '_' ∉ n → extractSource (s ++ chunkSep ++ n) = s) := by
  refine ⟨?_, ?_, diversify_sublist _, rfl, extractSource_wellFormed⟩
  · exact diversifyAux_length _ _ _ (by simp)
  · exact diversifyAux_count _ _ _ (fun t => rfl) (fun t => by omega)

/-- C2 witness: concrete per-source bound and concrete suffix stripping. -/
theorem claim2_source_diversification_witness :
    countSource "doc.txt".data
      (diversify (ragFilter 2
        [{ docId := "doc.txt_chunk_0".data, text := "A".data, distance := 1 }])) ≤ 2 ∧
    extractSource ("doc.txt".data ++ chunkSep ++ "3".data) = "doc.txt".data :=
  ⟨(claim2_source_diversification 2
      [{ docId := "doc.txt_chunk_0".data, text := "A".data, distance := 1 }]).2.1
      "doc.txt".data,
    (claim2_source_diversification 2 []).2.2.2.2 "doc.txt".data "3".data (by decide)⟩

/-- C3: the claim asserts the chunking loop terminates for all parameters
with `0 < overlap < chunk_size`. It does not: on the 15-character text
`"aaaaaa\naaaazzzz"` with `chunk_size = 10`, `overlap = 9`, the newline
back-up sets `end = start + 7`, the advance clamps
`start = max(7 - 9, 0) = 0`, and the `end <= start` guard never fires, so
the window start stays at 0 and the loop never exits (contradicting the
code's own `Avoid infinite loops` guard comment): the run is still going
after any number of iterations. -/
theorem claim3_chunking_nonterminating :
    ∀ fuel : Nat, chunkRun "aaaaaa\naaaazzzz".data 10 9 fuel 0 = false := by
  intro fuel
  induction fuel with
  | zero => rfl
  | succ n ih =>
    have hstep : chunkStep "aaaaaa\naaaazzzz".data 10 9 0 = some 0 := by decide
    have hlen : 0 < ("aaaaaa\naaaazzzz".data).length := by decide
    simp only [chunkRun, if_pos hlen, hstep]
    exact ih

/-- C5: `detect_ticket_intent` always returns one of the three closed
tags; an explicit decline phrase in the lowercased, stripped input forces
`declining` irrespective of client or LLM; otherwise a missing client, a
failed LLM call, or LLM output outside the enum yields the safe default
`giving_name`. -/
theorem claim5_ticket_intent (text : Str) (hasClient : Bool) (llm : Option Str) :
    (detect_ticket_intent text hasClient llm = "giving_name".data ∨
      detect_ticket_intent text hasClient llm = "declining".data ∨
      detect_ticket_intent text hasClient llm = "new_question".data) ∧
    (declineKeywords.any (fun kw => containsSub kw (pyStrip (pyLower text))) = true →
      ∀ (c' : Bool) (llm' : Option Str),
        detect_ticket_intent text c' llm' = "declining".data) ∧
    (declineKeywords.any (fun kw => containsSub kw (pyStrip (pyLower text))) = false →
      (hasClient = false ∨ llm = none ∨
        ∃ r, llm = some r ∧
          pyLower (pyStrip r) ≠ "giving_name".data ∧
          pyLower (pyStrip r) ≠ "declining".data ∧
          pyLower (pyStrip r) ≠ "new_question".data) →
      detect_ticket_intent text hasClient llm = "giving_name".data) := by
  by_cases hd : declineKeywords.any (fun kw => containsSub kw (pyStrip (pyLower text))) = true
  · refine ⟨?_, ?_, ?_⟩
    · right; left
      simp [detect_ticket_intent, hd]
    · intro _ c' llm'
      simp [detect_ticket_intent, hd]
    · intro hfalse
      rw [hfalse] at hd
      exact absurd hd (by simp)
  · have hd' : declineKeywords.any (fun kw => containsSub kw (pyStrip (pyLower text))) = false :=
      Bool.eq_false_iff.mpr hd
    cases hasClient with
    | false => exact ⟨Or.inl (by simp [detect_ticket_intent, hd']),
        fun h => absurd (hd'.symm.trans h) (by simp),
        fun _ _ => by simp [detect_ticket_intent, hd']⟩
    | true =>
      refine ⟨?_, fun h => absurd (hd'.symm.trans h) (by simp), ?_⟩
      · cases llm with
        | none => exact Or.inl (by simp [detect_ticket_intent, hd'])
        | some r =>
          by_cases hre : r.isEmpty
          · exact Or.inl (by simp [detect_ticket_intent, hd', hre])
          · by_cases henum : pyLower (pyStrip r) = "giving_name".data ∨
                pyLower (pyStrip r) = "declining".data ∨
                pyLower (pyStrip r) = "new_question".data
            · have : detect_ticket_intent text true (some r) = pyLower (pyStrip r) := by
                simp [detect_ticket_intent, hd', hre, henum]
              rw [this]
              exact henum
            · exact Or.inl (by simp [detect_ticket_intent, hd', hre, henum])
      · intro _ hbad
        rcases hbad with hc | hnone | ⟨r, hr, h1, h2, h3⟩
        · exact absurd hc (by simp)
        · subst hnone
          simp [detect_ticket_intent, hd']
        · subst hr
          by_cases hre : r.isEmpty
          · simp [detect_ticket_intent, hd', hre]
          · have henum : ¬ (pyLower (pyStrip r) = "giving_name".data ∨
                pyLower (pyStrip r) = "declining".data ∨
                pyLower (pyStrip r) = "new_question".data) := by
              push_neg
              exact ⟨h1, h2, h3⟩
            simp [detect_ticket_intent, hd', hre, henum]

/-- C5 witness: a decline phrase wins over an available LLM, and a
missing client with no decline phrase falls back to `giving_name`. -/
theorem claim5_ticket_intent_witness :
    detect_ticket_intent "laat maar".data true (some "x".data) = "declining".data ∧
    detect_ticket_intent "Wilco".data false none = "giving_name".data :=
  ⟨(claim5_ticket_intent "laat maar".data true (some "x".data)).2.1 (by decide)
      true (some "x".data),
    (claim5_ticket_intent "Wilco".data false none).2.2 (by decide) (Or.inl rfl)⟩

/-- C8: `sanitize_session_id` keeps only `[a-zA-Z0-9_-]`, truncates to
100 characters (hence no path separators and no dots survive), and maps
`"../../../etc/passwd"` to `"etcpasswd"`. -/
theorem claim8_sanitize (s : Str) :
    (∀ c ∈ sanitize_session_id s, isAllowedSess c = true) ∧
    (sanitize_session_id s).length ≤ 100 ∧
    (∀ c ∈ sanitize_session_id s, c ≠ '/' ∧ c ≠ '.') ∧
    sanitize_session_id "../../../etc/passwd".data = "etcpasswd".data := by
  have hmem : ∀ c ∈ sanitize_session_id s, isAllowedSess c = true := by
    intro c hc
    unfold sanitize_session_id at hc
    have hf := List.mem_of_mem_take hc
    exact (List.mem_filter.mp hf).2
  refine ⟨hmem, ?_, ?_, by decide⟩
  · unfold sanitize_session_id
    apply List.length_take_le
  · intro c hc
    have h := hmem c hc
    constructor
    · intro hx
      subst hx
      exact absurd h (by decide)
    · intro hx
      subst hx
      exact absurd h (by decide)

/-- C4: in `awaiting_email`, a message whose stripped form is a valid
email delegates escalation to the delivery collaborator with the stored
name, the email, the original question and the chat history, and saves
the session with state `inactive` and cleared history. -/
theorem claim4_email_escalation (o : Oracle) (st : Session) (msg nm q : Str)
    (hstate : st.state = "awaiting_email".data)
    (hvalid : is_valid_email (pyStrip msg) = true)
    (hmsg : msg ≠ []) (hlen : msg.length ≤ 1000)
    (hname : st.name = some nm) (hq : st.question = some q) :
    (chat o st msg).escalation =
      some { name := nm, email := pyStrip msg, question := q,
             history := st.chatHistory } ∧
    (chat o st msg).session.state = "inactive".data ∧
    (chat o st msg).session.chatHistory = [] ∧
    (chat o st msg).saved = true := by
  rw [chat_awaiting_email_valid o st msg hstate hvalid hmsg hlen]
  simp [resetInactive, freshSession, hname, hq]

/-- C4 witness: a concrete `awaiting_email` session and a concrete
valid email. -/
theorem claim4_email_escalation_witness :
    (chat oW stEmailW " jan@example.com ".data).escalation =
      some { name := "Jan".data, email := pyStrip " jan@example.com ".data,
             question := "vraag over schors".data,
             history := stEmailW.chatHistory } ∧
    (chat oW stEmailW " jan@example.com ".data).session.state = "inactive".data ∧
    (chat oW stEmailW " jan@example.com ".data).session.chatHistory = [] ∧
    (chat oW stEmailW " jan@example.com ".data).saved = true :=
  claim4_email_escalation oW stEmailW " jan@example.com ".data "Jan".data
    "vraag over schors".data rfl (by decide) (by decide) (by decide) rfl rfl

/-- C6: with the order-confirmation sub-state set at time `ts` (and the
primary state `inactive`), an affirmative message strictly within the
5-minute window performs the shipment lookup for the pending order and
clears the sub-state, while a message arriving strictly after the window
first clears the sub-state (all three keys) and is then processed exactly
as a fresh message, with no lookup. -/
theorem claim6_confirmation_timing (o : Oracle) (st : Session) (msg oid : Str) (ts : ℤ)
    (hstate : st.state = "inactive".data)
    (hawait : st.awaitingOrderConfirmation = true)
    (hts : st.confirmationTimestamp = some ts)
    (hoid : st.pendingOrderId = some oid)
    (hmsg : msg ≠ []) (hlen : msg.length ≤ 1000) :
    (o.now - ts < 300 → isAffirmative (pyLower msg) = true →
      (chat o st msg).lookup = some oid ∧
      (chat o st msg).session.awaitingOrderConfirmation = false ∧
      (chat o st msg).session.pendingOrderId = none ∧
      (chat o st msg).session.confirmationTimestamp = none) ∧
    (300 < o.now - ts →
      chat o st msg = chat o (clearConf st) msg ∧
      (chat o st msg).lookup = none) := by
  constructor
  · intro hlt haff
    rw [chat_inactive o st msg hstate hmsg hlen,
      afterStates_affirm o st msg ts hawait hts (by omega) haff]
    simp [clearConf, hoid]
  · intro hgt
    have hL : chat o st msg = afterConfirmation o (clearConf st) msg := by
      rw [chat_inactive o st msg hstate hmsg hlen,
        afterStates_timeout o st msg ts hawait hts hgt]
    have hR : chat o (clearConf st) msg = afterConfirmation o (clearConf st) msg := by
      rw [chat_inactive o (clearConf st) msg (by simpa [clearConf] using hstate)
        hmsg hlen, afterStates_not_awaiting o (clearConf st) msg rfl]
    exact ⟨hL.trans hR.symm,
      by rw [hL]; exact afterConfirmation_lookup_none o (clearConf st) msg⟩

/-- C6 witness: affirmative `"ja"` at `t = 299` performs the lookup for
order `12345` and clears the sub-state; any message at `t = 301` is
handled exactly as with the sub-state already cleared, with no lookup. -/
theorem claim6_confirmation_timing_witness :
    ((chat oW299 stConfW "ja".data).lookup = some "12345".data ∧
      (chat oW299 stConfW "ja".data).session.awaitingOrderConfirmation = false ∧
      (chat oW299 stConfW "ja".data).session.pendingOrderId = none ∧
      (chat oW299 stConfW "ja".data).session.confirmationTimestamp = none) ∧
    (chat oW stConfW "hoi".data = chat oW (clearConf stConfW) "hoi".data ∧
      (chat oW stConfW "hoi".data).lookup = none) :=
  ⟨(claim6_confirmation_timing oW299 stConfW "ja".data "12345".data 0
      rfl rfl rfl rfl (by decide) (by decide)).1 (by decide) (by decide),
    (claim6_confirmation_timing oW stConfW "hoi".data "12345".data 0
      rfl rfl rfl rfl (by decide) (by decide)).2 (by decide)⟩

/-- C7: re-issuing a cached query strictly within the 300-second TTL
returns the identical cached context with no embedding/vector-search
call; once the TTL has elapsed the stale entry is evicted and a fresh
embedding and retrieval is performed. -/
theorem claim7_cache_ttl (cache : Cache) (q ctx fresh : Str) (ts now : ℤ)
    (hlook : lookupC q cache = some (ctx, ts)) (hne : ctx ≠ []) :
    (now - ts < 300 → retrieveWithCache now cache q fresh = (ctx, cache, false)) ∧
    (300 ≤ now - ts →
      (retrieveWithCache now cache q fresh).1 = fresh ∧
      (retrieveWithCache now cache q fresh).2.2 = true ∧
      lookupC q (get_cached_context now cache q).2 = none) := by
  have hce : ctx.isEmpty = false := by
    cases ctx with
    | nil => exact absurd rfl hne
    | cons a t => rfl
  constructor
  · intro hlt
    unfold retrieveWithCache get_cached_context
    rw [hlook]
    simp only []
    rw [if_pos hlt]
    simp only []
    rw [if_neg (by simp [hce])]
  · intro hge
    have hred : get_cached_context now cache q = (none, eraseKey q cache) := by
      unfold get_cached_context
      rw [hlook]
      simp only []
      rw [if_neg (by omega)]
    refine ⟨?_, ?_, ?_⟩
    · unfold retrieveWithCache
      rw [hred]
    · unfold retrieveWithCache
      rw [hred]
    · rw [hred]
      exact lookupC_eraseKey q cache

/-- C7 witness: a concrete one-entry cache hit at `t = 100` and the same
entry expired at `t = 400`. -/
theorem claim7_cache_ttl_witness :
    retrieveWithCache 100 [("vraag".data, ("context".data, 0))] "vraag".data
        "fresh".data
      = ("context".data, [("vraag".data, ("context".data, 0))], false) ∧
    (retrieveWithCache 400 [("vraag".data, ("context".data, 0))] "vraag".data
        "fresh".data).2.2 = true :=
  ⟨(claim7_cache_ttl [("vraag".data, ("context".data, 0))] "vraag".data
      "context".data "fresh".data 0 100 rfl (by decide)).1 (by decide),
    ((claim7_cache_ttl [("vraag".data, ("context".data, 0))] "vraag".data
      "context".data "fresh".data 0 400 rfl (by decide)).2 (by decide)).2.1⟩

/-- C9 counterexample: the stored language is not sticky. A first turn
(`"hallo"`, no order match, plain RAG answer) stores `nl`; the very next
turn of the same session (`"hello"`) overwrites the stored language with
`en`. -/
theorem claim9_language_counterexample :
    (chat oW freshSession "hallo".data).session.language = some "nl".data ∧
    (chat oW (chat oW freshSession "hallo".data).session "hello".data).session.language
      = some "en".data ∧
    (some "en".data : Option Str) ≠ some "nl".data := by
  refine ⟨by decide, by decide, by decide⟩

/-- C9 (amended): the stored language is overwritten, not sticky: every
turn that reaches the language-detection step (primary state `inactive`,
no pending order confirmation, no order-number match, message valid)
saves the freshly detected language of that message, replacing any
previously stored value. -/
theorem claim9_language_overwritten (o : Oracle) (st : Session) (msg : Str)
    (hstate : st.state = "inactive".data)
    (hawait : st.awaitingOrderConfirmation = false)
    (hmsg : msg ≠ []) (hlen : msg.length ≤ 1000)
    (hord : findOrderId (pyLower msg) = none) :
    (chat o st msg).session.language = some (o.detectLanguage msg) := by
  rw [chat_inactive o st msg hstate hmsg hlen,
    afterStates_not_awaiting o st msg hawait]
  exact afterConfirmation_language o st msg hord

/-- C9 (amended) witness: a session that already stores `nl` gets `en`
stored by an English turn. -/
theorem claim9_language_overwritten_witness :
    (chat oW { freshSession with language := some "nl".data }
      "hello".data).session.language = some (oW.detectLanguage "hello".data) :=
  claim9_language_overwritten oW { freshSession with language := some "nl".data }
    "hello".data rfl rfl (by decide) (by decide) (by decide)

/-- C10: in `awaiting_email` with a valid email, the session is reset to
`{state: inactive, chat_history: []}` and saved regardless of the
delivery outcome: even when the collaborator returns a falsy result the
reset still happens, escalation was attempted, and the user gets the
apology path rather than an exception. -/
theorem claim10_reset_despite_failure (o : Oracle) (st : Session) (msg : Str)
    (hstate : st.state = "awaiting_email".data)
    (hvalid : is_valid_email (pyStrip msg) = true)
    (hmsg : msg ≠ []) (hlen : msg.length ≤ 1000)
    (hfail : o.escalationResult = none) :
    (chat o st msg).session = resetInactive [] ∧
    (chat o st msg).session.state = "inactive".data ∧
    (chat o st msg).session.chatHistory = [] ∧
    (chat o st msg).escalation.isSome = true ∧
    (chat o st msg).tag = RTag.escalationFail ∧
    (chat o st msg).saved = true := by
  rw [chat_awaiting_email_valid o st msg hstate hvalid hmsg hlen]
  simp [resetInactive, freshSession, hfail]

/-- C10 witness: concrete failing delivery still resets the session. -/
theorem claim10_reset_despite_failure_witness :
    (chat oWFail stEmailW "jan@example.com".data).session = resetInactive [] ∧
    (chat oWFail stEmailW "jan@example.com".data).session.state = "inactive".data ∧
    (chat oWFail stEmailW "jan@example.com".data).session.chatHistory = [] ∧
    (chat oWFail stEmailW "jan@example.com".data).escalation.isSome = true ∧
    (chat oWFail stEmailW "jan@example.com".data).tag = RTag.escalationFail ∧
    (chat oWFail stEmailW "jan@example.com".data).saved = true :=
  claim10_reset_despite_failure oWFail stEmailW "jan@example.com".data
    rfl (by decide) (by decide) (by decide) rfl

/-- C8 witness: concrete application on the path-traversal session id. -/
theorem claim8_sanitize_witness :
    isAllowedSess 'e' = true ∧ ('e' ≠ '/' ∧ 'e' ≠ '.') ∧
    sanitize_session_id "../../../etc/passwd".data = "etcpasswd".data :=
  ⟨(claim8_sanitize "../../../etc/passwd".data).1 'e' (by decide),
    (claim8_sanitize "../../../etc/passwd".data).2.2.1 'e' (by decide),
    (claim8_sanitize "../../../etc/passwd".data).2.2.2⟩

end Chatbot
